import Mathlib

/-!
Verification of the replay-filter and in-memory PE-loader subsystems of the
wireguard-go repository, together with the Windows TUN rate estimator.

The definitions shallowly embed the Go source.  Machine integers are
modelled as `Nat` with explicit `% 2^w` where overflow can occur.  Code of
the repository whose file is not available (the replay filter
implementation, and a few helpers of the memory-module loader) is modelled
from the specification; such definitions carry a doc comment starting with
`Modelled from the spec:`.
-/

namespace Replay

/-- Constant `RejectAfterMessages` as defined in `replay/replay_test.go`:
`1<<64 - 1<<13 - 1`. -/
def RejectAfterMessages : Nat := 2 ^ 64 - 2 ^ 13 - 1

/-- Modelled from the spec: the replay filter state (`replay.go` is not under
`src/`; only its test is).  Spec §3: `bitmap` is a ring of `W` bits indexed by
the counter value; we model the set bits as the `Finset` of ring positions
(each `< W`); `last` is the highest counter ever accepted, initially `0`. -/
structure Filter where
  last : Nat
  ring : Finset Nat
deriving DecidableEq

/-- Modelled from the spec: a freshly created (zero-initialized) filter,
also the state restored by `Reset` (spec §3 lifecycle). -/
def Filter.reset : Filter := ⟨0, ∅⟩

/-- Modelled from the spec: advancing the window clears every bit in the ring
at positions `(L, L+1, …, L+diff]` (spec §4.1 step 2). -/
def clearRange (W : Nat) (r : Finset Nat) (last diff : Nat) : Finset Nat :=
  (List.range diff).foldl (fun s i => s.erase ((last + 1 + i) % W)) r

/-- Modelled from the spec: `validate(counter, limit)` of §4.1, for window
width `W`.  Step 1: counters `≥ limit` are rejected.  Step 2 (`counter >
last`): clear the newly exposed window cells (the whole bitmap when `diff ≥
W`), set `last := counter`, set the bit for `counter` (which was just
cleared) and accept.  Step 3 (`counter ≤ last`): reject when `last − counter
≥ W` (stale), reject when the ring bit is already set (duplicate), otherwise
set it and accept.  Returns the decision and the updated filter. -/
def Filter.validateCounter (W : Nat) (f : Filter) (counter limit : Nat) :
    Bool × Filter :=
  if limit ≤ counter then
    (false, f)
  else if f.last < counter then
    let diff := counter - f.last
    let ring' := if W ≤ diff then (∅ : Finset Nat)
                 else clearRange W f.ring f.last diff
    (true, ⟨counter, insert (counter % W) ring'⟩)
  else if W ≤ f.last - counter then
    (false, f)
  else if counter % W ∈ f.ring then
    (false, f)
  else
    (true, ⟨f.last, insert (counter % W) f.ring⟩)

/-- Run a list of `(counter, limit)` submissions through the filter,
returning the final state. -/
def runCalls (W : Nat) (f : Filter) (calls : List (Nat × Nat)) : Filter :=
  calls.foldl (fun s p => (Filter.validateCounter W s p.1 p.2).2) f

section Lemmas

/-- Membership after folding `Finset.erase` over a list of positions. -/
theorem mem_foldl_erase (l : List Nat) (r : Finset Nat) (p : Nat) :
    p ∈ l.foldl (fun s x => s.erase x) r ↔ p ∈ r ∧ p ∉ l := by
  induction l generalizing r with
  | nil => simp
  | cons a t ih =>
      simp only [List.foldl_cons, ih, Finset.mem_erase, List.mem_cons]
      tauto

theorem mem_clearRange (W : Nat) (r : Finset Nat) (last diff p : Nat) :
    p ∈ clearRange W r last diff ↔
      p ∈ r ∧ ∀ i < diff, (last + 1 + i) % W ≠ p := by
  unfold clearRange
  rw [show (fun (s : Finset Nat) (i : Nat) => s.erase ((last + 1 + i) % W))
        = fun s i => (fun (s : Finset Nat) (x : Nat) => s.erase x) s
            ((fun i => (last + 1 + i) % W) i) from rfl,
      ← List.foldl_map, mem_foldl_erase]
  simp

/-- Field `last` never decreases across a `validateCounter` call. -/
theorem last_le_validate (W : Nat) (f : Filter) (c L : Nat) (b : Bool)
    (g : Filter) (h : Filter.validateCounter W f c L = (b, g)) :
    f.last ≤ g.last := by
  unfold Filter.validateCounter at h
  split at h
  · cases h; exact Nat.le_refl _
  · split at h
    · next hlt =>
        cases h; exact Nat.le_of_lt hlt
    · split at h
      · cases h; exact Nat.le_refl _
      · split at h
        · cases h; exact Nat.le_refl _
        · cases h; exact Nat.le_refl _

/-- Field `last` never decreases across a sequence of calls. -/
theorem last_le_runCalls (W : Nat) (f : Filter) (calls : List (Nat × Nat)) :
    f.last ≤ (runCalls W f calls).last := by
  induction calls generalizing f with
  | nil => exact Nat.le_refl _
  | cons p t ih =>
      exact Nat.le_trans
        (last_le_validate W f p.1 p.2 _ _ rfl) (ih _)

/-- An accepted counter is at most the new `last`. -/
theorem accept_le_last (W : Nat) (f : Filter) (c L : Nat) (g : Filter)
    (h : Filter.validateCounter W f c L = (true, g)) :
    c ≤ g.last := by
  unfold Filter.validateCounter at h
  split at h
  · simp at h
  · split at h
    · cases h; exact Nat.le_refl _
    · next hnlt =>
        split at h
        · simp at h
        · split at h
          · simp at h
          · cases h; exact Nat.le_of_not_lt hnlt

/-- Two counters closer than `W` apart cannot share a ring position. -/
theorem mod_ne_of_between (W a b : Nat) (hlt : b < a) (hdiff : a - b < W)
    (h : a % W = b % W) : False := by
  have hd : W ∣ a - b :=
    (Nat.modEq_iff_dvd' (Nat.le_of_lt hlt)).mp h.symm
  have : W ≤ a - b := Nat.le_of_dvd (by omega) hd
  omega

/-- Invariant carried by an accepted counter `c`: it is at most `last`, and
either its ring bit is still set or the window has slid past it. -/
def AcceptedIn (W c : Nat) (f : Filter) : Prop :=
  c ≤ f.last ∧ (c % W ∈ f.ring ∨ c + W ≤ f.last)

theorem acceptedIn_of_accept (W : Nat) (f : Filter) (c L : Nat) (g : Filter)
    (h : Filter.validateCounter W f c L = (true, g)) : AcceptedIn W c g := by
  unfold Filter.validateCounter at h
  split at h
  · simp at h
  · split at h
    · cases h
      exact ⟨Nat.le_refl _, Or.inl (Finset.mem_insert_self _ _)⟩
    · next hnlt =>
        split at h
        · simp at h
        · split at h
          · simp at h
          · cases h
            exact ⟨Nat.le_of_not_lt hnlt, Or.inl (Finset.mem_insert_self _ _)⟩

theorem acceptedIn_validate (W c : Nat) (f : Filter) (c' L' : Nat)
    (hf : AcceptedIn W c f) :
    AcceptedIn W c (Filter.validateCounter W f c' L').2 := by
  obtain ⟨hcle, hbit⟩ := hf
  unfold Filter.validateCounter
  split
  · exact ⟨hcle, hbit⟩
  · split
    · next hlt =>
        refine ⟨Nat.le_trans hcle (Nat.le_of_lt hlt), ?_⟩
        by_cases hsl : c + W ≤ c'
        · exact Or.inr hsl
        · left
          have hWd : ¬ W ≤ c' - f.last := by omega
          simp only [if_neg hWd]
          apply Finset.mem_insert_of_mem
          rw [mem_clearRange]
          refine ⟨?_, ?_⟩
          · rcases hbit with hb | hb
            · exact hb
            · omega
          · intro i hi heq
            exact mod_ne_of_between W (f.last + 1 + i) c (by omega) (by omega) heq
    · split
      · exact ⟨hcle, hbit⟩
      · split
        · exact ⟨hcle, hbit⟩
        · exact ⟨hcle, hbit.imp (fun hb => Finset.mem_insert_of_mem hb) id⟩

theorem acceptedIn_runCalls (W c : Nat) (f : Filter)
    (calls : List (Nat × Nat)) (hf : AcceptedIn W c f) :
    AcceptedIn W c (runCalls W f calls) := by
  induction calls generalizing f with
  | nil => exact hf
  | cons p t ih => exact ih _ (acceptedIn_validate W c f p.1 p.2 hf)

/-- A counter protected by `AcceptedIn` is rejected on resubmission. -/
theorem acceptedIn_reject (W c : Nat) (f : Filter) (L : Nat)
    (hf : AcceptedIn W c f) : (Filter.validateCounter W f c L).1 = false := by
  obtain ⟨hcle, hbit⟩ := hf
  unfold Filter.validateCounter
  split
  · rfl
  · split
    · next hlt => omega
    · split
      · rfl
      · split
        · rfl
        · next hstale hmem =>
            exfalso
            rcases hbit with hb | hb
            · exact hmem hb
            · exact hstale (by omega)

end Lemmas

/-- C2: for every filter state, a counter at or below `last` minus the window
width `W` is rejected; and once a counter `c1` has been accepted, every
subsequent submission of a counter `c2 ≤ c1 − W` (through any interposed
call sequence) is rejected as stale. -/
theorem validate_rejects_stale_counters (W : Nat) :
    (∀ (f : Filter) (c limit : Nat), c + W ≤ f.last →
        (Filter.validateCounter W f c limit).1 = false)
  ∧ (∀ (f : Filter) (c1 limit1 g : _),
        Filter.validateCounter W f c1 limit1 = (true, g) →
      ∀ (calls : List (Nat × Nat)) (c2 limit2 : Nat), c2 + W ≤ c1 →
        (Filter.validateCounter W (runCalls W g calls) c2 limit2).1
          = false) := by
  have part1 : ∀ (f : Filter) (c limit : Nat), c + W ≤ f.last →
      (Filter.validateCounter W f c limit).1 = false := by
    intro f c limit hstale
    unfold Filter.validateCounter
    split
    · rfl
    · split
      · next hlt => omega
      · split
        · rfl
        · next hnst => omega
  refine ⟨part1, ?_⟩
  intro f c1 limit1 g hacc calls c2 limit2 hle
  apply part1
  have h1 : c1 ≤ g.last := accept_le_last W f c1 limit1 g hacc
  have h2 : g.last ≤ (runCalls W g calls).last := last_le_runCalls W g calls
  omega

/-- Witness for C2 at `W = 4`: the counter `2` is stale against `last = 10`,
and after accepting `5` on a fresh filter the counter `1 = 5 − 4` is
rejected. -/
theorem validate_rejects_stale_counters_witness :
    (Filter.validateCounter 4 ⟨10, ∅⟩ 2 100).1 = false
  ∧ (Filter.validateCounter 4
      (runCalls 4 (Filter.validateCounter 4 Filter.reset 5 100).2 []) 1 50).1
        = false := by
  refine ⟨(validate_rejects_stale_counters 4).1 ⟨10, ∅⟩ 2 100 (by decide), ?_⟩
  exact (validate_rejects_stale_counters 4).2 Filter.reset 5 100
    (Filter.validateCounter 4 Filter.reset 5 100).2 (by decide) [] 1 50
    (by decide)

/-- C4: counters at or above `limit` are always rejected; on a fresh filter
with `limit =2^64 − 2^13 − 1`, `limit − 1` is accepted while `limit` and
`limit + 1` are rejected (for every window width). -/
theorem validate_rejects_over_limit :
    (∀ (W : Nat) (f : Filter) (c limit : Nat), limit ≤ c →
        (Filter.validateCounter W f c limit).1 = false)
  ∧ ∀ W : Nat,
      (Filter.validateCounter W Filter.reset (RejectAfterMessages - 1)
        RejectAfterMessages).1 = true
    ∧ (Filter.validateCounter W Filter.reset RejectAfterMessages
        RejectAfterMessages).1 = false
    ∧ (Filter.validateCounter W Filter.reset (RejectAfterMessages + 1)
        RejectAfterMessages).1 = false := by
  constructor
  · intro W f c limit h
    unfold Filter.validateCounter
    rw [if_pos h]
  · intro W
    have h1 : ¬ (RejectAfterMessages ≤ RejectAfterMessages - 1) := by
      unfold RejectAfterMessages; decide
    have h2 : Filter.reset.last < RejectAfterMessages - 1 := by
      show 0 < _
      unfold RejectAfterMessages; decide
    refine ⟨?_, ?_, ?_⟩
    · unfold Filter.validateCounter
      rw [if_neg h1, if_pos h2]
    · unfold Filter.validateCounter
      rw [if_pos (Nat.le_refl _)]
    · unfold Filter.validateCounter
      rw [if_pos (Nat.le_succ _)]

/-- Witness for C4: a counter above the limit on a small filter state is
rejected. -/
theorem validate_rejects_over_limit_witness :
    (Filter.validateCounter 4 Filter.reset 7 3).1 = false :=
  validate_rejects_over_limit.1 4 Filter.reset 7 3 (by decide)

/-- C5: after `validate(c, limit)` returned `true`, any later resubmission of
the same counter `c` with the window not yet slid past `c` is rejected; this
covers in particular the case `c = last` of the later state. -/
theorem validate_rejects_duplicate (W : Nat) (f : Filter) (c limit : Nat)
    (g : Filter) (hacc : Filter.validateCounter W f c limit = (true, g))
    (calls : List (Nat × Nat))
    (_hwin : (runCalls W g calls).last < c + W) :
    (Filter.validateCounter W (runCalls W g calls) c limit).1 = false :=
  acceptedIn_reject W c (runCalls W g calls) limit
    (acceptedIn_runCalls W c g calls (acceptedIn_of_accept W f c limit g hacc))

/-- Witness for C5: on a fresh filter with `W = 4`, counter `0` is accepted
and its immediate resubmission is rejected. -/
theorem validate_rejects_duplicate_witness :
    (Filter.validateCounter 4
      (runCalls 4 (Filter.validateCounter 4 Filter.reset 0 10).2 []) 0 10).1
        = false := by
  refine validate_rejects_duplicate 4 Filter.reset 0 10
    (Filter.validateCounter 4 Filter.reset 0 10).2 ?_ [] ?_
  · have : (Filter.validateCounter 4 Filter.reset 0 10).1 = true := by decide
    exact Prod.ext this rfl
  · decide

end Replay

namespace WinTun

/-- Constant `rateMeasurementGranularity` from `tun_windows.go`:
`(time.Second / 2) / time.Nanosecond` nanoseconds. -/
def rateMeasurementGranularity : Nat := 500000000

/-- Constant `spinloopRateThreshold` from `tun_windows.go`: `800000000 / 8`. -/
def spinloopRateThreshold : Nat := 100000000

/-- Truncation of a (mathematical) integer to its `uint64` bit pattern, as
performed by Go conversions such as `uint64(now - nextStartTime)`. -/
def u64OfInt (x : Int) : Nat := (x % (2 ^ 64 : Int)).toNat

/-- The `rateJuggler` state of `tun_windows.go`: byte-rate estimate shared
between the read and write paths. -/
structure RateJuggler where
  current : Nat
  nextByteCount : Nat
  nextStartTime : Int
  changing : Int
deriving DecidableEq

/-- Go `rateJuggler.update` from `tun_windows.go`, single-threaded semantics of
the atomics: the packet length is added to `nextByteCount`; once a
measurement period of at least `rateMeasurementGranularity` nanoseconds has
elapsed (and the CAS on `changing` succeeds, which single-threaded means
`changing = 0`), `current` is recomputed as bytes per second and the period
restarts. -/
def RateJuggler.update (rate : RateJuggler) (packetLen : Nat) (now : Int) :
    RateJuggler :=
  let total := (rate.nextByteCount + packetLen) % 2 ^ 64
  let period := u64OfInt (now - rate.nextStartTime)
  if rateMeasurementGranularity ≤ period then
    if rate.changing ≠ 0 then
      { rate with nextByteCount := total }
    else
      { current := total * 1000000000 % 2 ^ 64 / period,
        nextByteCount := 0, nextStartTime := now, changing := 0 }
  else
    { rate with nextByteCount := total }

/-- The fields of `NativeTun` relevant to the `Read`/`Write` data path. -/
structure NativeTun where
  close : Bool
  rate : RateJuggler
deriving DecidableEq

/-- The spin-versus-wait decision computed from a rate state, as in
`NativeTun.Read`: spin only while the current rate is at least
`spinloopRateThreshold` and the measurement period is recent. -/
def spinDecision (rate : RateJuggler) (start : Int) : Bool :=
  decide (spinloopRateThreshold ≤ rate.current)
    && decide (u64OfInt (start - rate.nextStartTime)
        ≤ rateMeasurementGranularity * 2)

/-- The `shouldSpin` computation of `NativeTun.Read`: it consults `tun.rate`
(`tun.rate.current` and `tun.rate.nextStartTime`). -/
def NativeTun.readShouldSpin (tun : NativeTun) (start : Int) : Bool :=
  spinDecision tun.rate start

/-- Outcome of `session.AllocateSendPacket` in `NativeTun.Write`, as decided
by the driver ring. -/
inductive SendOutcome where
  | ok
  | eof
  | overflow
  | failed
deriving DecidableEq

/-- Errors surfaced by `NativeTun.Write`. -/
inductive WriteError where
  | closed
  | eof
  | failed
deriving DecidableEq

/-- Go `NativeTun.Write` from `tun_windows.go`: after the closed check it
unconditionally calls `tun.rate.update(uint64(len(buff) - offset))`
(before the send-ring interaction), then hands the packet to the session.
A full ring (`ERROR_BUFFER_OVERFLOW`) drops the packet and reports success
with `0` bytes. -/
def NativeTun.Write (tun : NativeTun) (buffLen offset : Nat) (now : Int)
    (outcome : SendOutcome) : (Except WriteError Int) × NativeTun :=
  if tun.close then
    (.error .closed, tun)
  else
    let packetSize : Int := (buffLen : Int) - (offset : Int)
    let tun' : NativeTun :=
      { tun with rate := tun.rate.update (u64OfInt packetSize) now }
    match outcome with
    | .ok => (.ok packetSize, tun')
    | .eof => (.error .eof, tun')
    | .overflow => (.ok 0, tun')
    | .failed => (.error .failed, tun')

/-- C10: every `Write` that passes the closed check updates `tun.rate` via
`rateJuggler.update` with `len(buff) − offset` bytes, and the spin decision
of a subsequent `Read` is computed from exactly that updated rate state. -/
theorem write_updates_read_rate (tun : NativeTun) (buffLen offset : Nat)
    (now : Int) (outcome : SendOutcome) (start : Int)
    (h : tun.close = false) :
    ((NativeTun.Write tun buffLen offset now outcome).2).rate
        = tun.rate.update (u64OfInt ((buffLen : Int) - (offset : Int))) now
  ∧ NativeTun.readShouldSpin (NativeTun.Write tun buffLen offset now outcome).2
        start
      = spinDecision
          (tun.rate.update (u64OfInt ((buffLen : Int) - (offset : Int))) now)
          start := by
  unfold NativeTun.Write
  rw [if_neg (by simp [h])]
  cases outcome <;> exact ⟨rfl, rfl⟩

/-- Witness for C10: a concrete open tunnel state. -/
theorem write_updates_read_rate_witness :
    ((NativeTun.Write ⟨false, ⟨0, 0, 0, 0⟩⟩ 100 16 7 .ok).2).rate
        = RateJuggler.update ⟨0, 0, 0, 0⟩ (u64OfInt ((100 : Int) - 16)) 7
  ∧ NativeTun.readShouldSpin (NativeTun.Write ⟨false, ⟨0, 0, 0, 0⟩⟩ 100 16 7
        .ok).2 9
      = spinDecision (RateJuggler.update ⟨0, 0, 0, 0⟩
          (u64OfInt ((100 : Int) - 16)) 7) 9 :=
  write_updates_read_rate ⟨false, ⟨0, 0, 0, 0⟩⟩ 100 16 7 .ok 9 rfl

end WinTun

namespace Memmod

/-- DOS signature `0x5A4D` (spec §6 constants). -/
def IMAGE_DOS_SIGNATURE : Nat := 0x5A4D

/-- NT signature `0x00004550` (spec §6 constants). -/
def IMAGE_NT_SIGNATURE : Nat := 0x00004550

/-- Modelled from the spec: the `IMAGE_FILE_DLL` characteristics bit tested
by `LoadLibrary` (the constants file of the package is not under `src/`;
this is the standard PE value). -/
def IMAGE_FILE_DLL : Nat := 0x2000

def IMAGE_DIRECTORY_ENTRY_EXPORT : Nat := 0

def IMAGE_DIRECTORY_ENTRY_IMPORT : Nat := 1

def IMAGE_DIRECTORY_ENTRY_BASERELOC : Nat := 5

def IMAGE_DIRECTORY_ENTRY_TLS : Nat := 9

/-- Section characteristics bits (spec §6: `CNT_INITIALIZED_DATA`,
`CNT_UNINITIALIZED_DATA`, `MEM_DISCARDABLE`, `MEM_NOT_CACHED`; execute /
read / write are bits 29 / 30 / 31). -/
def IMAGE_SCN_CNT_INITIALIZED_DATA : Nat := 0x40

def IMAGE_SCN_CNT_UNINITIALIZED_DATA : Nat := 0x80

def IMAGE_SCN_MEM_DISCARDABLE : Nat := 0x2000000

def IMAGE_SCN_MEM_NOT_CACHED : Nat := 0x4000000

/-- Base-relocation entry types handled by `performBaseRelocation`. -/
def IMAGE_REL_BASED_ABSOLUTE : Nat := 0

def IMAGE_REL_BASED_HIGHLOW : Nat := 3

def IMAGE_REL_BASED_DIR64 : Nat := 10

/-- DLL notification reasons (spec §6: `ATTACH = 1`, `DETACH = 0`). -/
def DLL_PROCESS_ATTACH : Nat := 1

def DLL_PROCESS_DETACH : Nat := 0

/-- Modelled from the spec: `unsafe.Sizeof(IMAGE_DOS_HEADER{})` on a 64-bit
host (the struct definitions file is not under `src/`; the DOS header is 64
bytes in the PE format the spec references). -/
def sizeofIMAGE_DOS_HEADER : Nat := 64

/-- Modelled from the spec: `unsafe.Sizeof(IMAGE_NT_HEADERS{})` on a 64-bit
host (4-byte signature, 20-byte file header, 240-byte optional header). -/
def sizeofIMAGE_NT_HEADERS : Nat := 264

/-- Windows page-protection constants used by section finalization. -/
def PAGE_NOACCESS : Nat := 0x01

def PAGE_READONLY : Nat := 0x02

def PAGE_READWRITE : Nat := 0x04

def PAGE_WRITECOPY : Nat := 0x08

def PAGE_EXECUTE : Nat := 0x10

def PAGE_EXECUTE_READ : Nat := 0x20

def PAGE_EXECUTE_READWRITE : Nat := 0x40

def PAGE_EXECUTE_WRITECOPY : Nat := 0x80

def PAGE_NOCACHE : Nat := 0x200

/-- Go `alignDown(value, alignment)` from `memmod_windows.go`:
`value & ^(alignment - 1)` in 64-bit `uintptr` arithmetic. -/
def alignDown (value alignment : Nat) : Nat :=
  value % 2 ^ 64 &&& (2 ^ 64 - alignment % 2 ^ 64)

/-- Go `alignUp(value, alignment)` from `memmod_windows.go`:
`(value + alignment - 1) & ^(alignment - 1)` in 64-bit `uintptr`
arithmetic. -/
def alignUp (value alignment : Nat) : Nat :=
  (value + alignment - 1) % 2 ^ 64 &&& (2 ^ 64 - alignment % 2 ^ 64)

/-- One entry of `OptionalHeader.DataDirectory`. -/
structure IMAGE_DATA_DIRECTORY where
  VirtualAddress : Nat
  Size : Nat
deriving DecidableEq

/-- The fields of `IMAGE_FILE_HEADER` consulted by the loader. -/
structure IMAGE_FILE_HEADER where
  Machine : Nat
  NumberOfSections : Nat
  Characteristics : Nat
deriving DecidableEq

/-- The fields of the optional header consulted by the loader. -/
structure IMAGE_OPTIONAL_HEADER where
  SectionAlignment : Nat
  SizeOfInitializedData : Nat
  SizeOfUninitializedData : Nat
  AddressOfEntryPoint : Nat
  ImageBase : Nat
  SizeOfImage : Nat
  SizeOfHeaders : Nat
  DataDirectory : List IMAGE_DATA_DIRECTORY
deriving DecidableEq

/-- A section header; `PhysicalAddress` doubles as the scratch slot that
`copySections` fills with the low 32 bits of the mapped address. -/
structure IMAGE_SECTION_HEADER where
  PhysicalAddress : Nat
  VirtualAddress : Nat
  SizeOfRawData : Nat
  PointerToRawData : Nat
  Characteristics : Nat
deriving DecidableEq

/-- The NT headers together with the section table that
`headers.Sections()` exposes. -/
structure IMAGE_NT_HEADERS where
  Signature : Nat
  FileHeader : IMAGE_FILE_HEADER
  OptionalHeader : IMAGE_OPTIONAL_HEADER
  Sections : List IMAGE_SECTION_HEADER
deriving DecidableEq

/-- The fields of `IMAGE_EXPORT_DIRECTORY` consulted by symbol lookup. -/
structure IMAGE_EXPORT_DIRECTORY where
  Base : Nat
  NumberOfFunctions : Nat
  NumberOfNames : Nat
  AddressOfFunctions : Nat
  AddressOfNames : Nat
  AddressOfNameOrdinals : Nat
deriving DecidableEq

/-- A base-relocation block: 4-byte `VirtualAddress`, 4-byte `SizeOfBlock`,
followed by 16-bit entries; `entries` is the parsed view of the memory
following the block header, of which `(SizeOfBlock - 8) / 2` entries are
read. -/
structure IMAGE_BASE_RELOCATION where
  VirtualAddress : Nat
  SizeOfBlock : Nat
  entries : List Nat
deriving DecidableEq

/-- An import descriptor together with the parsed thunk arrays found at
`OriginalFirstThunk` / `FirstThunk` in the mapped image. -/
structure IMAGE_IMPORT_DESCRIPTOR where
  OriginalFirstThunk : Nat
  Name : Nat
  FirstThunk : Nat
  origThunks : List Nat
  firstThunks : List Nat
deriving DecidableEq

/-- Parsed view of the byte buffer handed to `LoadLibrary` (the loader reads
it through unsafe struct casts; the struct-definition helpers are not under
`src/`, so the buffer is embedded as its parsed fields):  `size` is
`len(data)`, `e_magic`/`e_lfanew` are the DOS header fields, `ntHeaders` is
the NT-headers structure at `e_lfanew`, and the remaining fields are the
parsed views of the directory contents the pipeline walks after the image
is mapped; `read32` gives the 32-bit little-endian value at a given RVA of
the mapped image. -/
structure PEData where
  size : Nat
  e_magic : Nat
  e_lfanew : Nat
  ntHeaders : IMAGE_NT_HEADERS
  relocBlocks : List IMAGE_BASE_RELOCATION
  importDescs : List IMAGE_IMPORT_DESCRIPTOR
  tlsAddressOfCallBacks : Nat
  tlsCallbacks : List Nat
  exports : IMAGE_EXPORT_DIRECTORY
  exportNames : List (String × Nat)
  read32 : Nat → Nat

/-- Events on process-wide state: virtual-memory calls, OS-loader calls and
calls into the loaded code. -/
inductive MemEvent where
  | alloc (addr size protection : Nat)
  | release (addr : Nat)
  | decommit (addr size : Nat)
  | protect (addr size protection : Nat)
  | patch32 (addr : Nat)
  | patch64 (addr : Nat)
  | loadLib (nameRVA : Nat)
  | freeLib (handle : Nat)
  | tlsCall (addr : Nat)
  | entryCall (addr reason : Nat)
deriving DecidableEq

/-- Struct `Module` from `memmod_windows.go`.  Go `nil` slices/maps/pointers are
`none`; `exports` and `read32` are the parsed view of the mapped image that
`ProcAddressByName` / `ProcAddressByOrdinal` dereference at lookup time. -/
structure Module where
  headers : Option IMAGE_NT_HEADERS
  codeBase : Nat
  modules : Option (List Nat)
  initialized : Bool
  isDLL : Bool
  isRelocated : Bool
  nameExports : Option (List (String × Nat))
  entry : Nat
  pageSize : Nat
  blockedMemory : Option (List Nat)
  exports : IMAGE_EXPORT_DIRECTORY
  read32 : Nat → Nat

/-- The zero `Module`, as allocated by `LoadLibrary` before the pipeline
runs. -/
def emptyModule : Module where
  headers := none
  codeBase := 0
  modules := none
  initialized := false
  isDLL := false
  isRelocated := false
  nameExports := none
  entry := 0
  pageSize := 0
  blockedMemory := none
  exports := ⟨0, 0, 0, 0, 0, 0⟩
  read32 := fun _ => 0

instance : Inhabited Module := ⟨emptyModule⟩

/-- Accessor `module.headerDirectory(idx)`:
`&module.headers.OptionalHeader.DataDirectory[idx]`. -/
def Module.headerDirectory (m : Module) (idx : Nat) : IMAGE_DATA_DIRECTORY :=
  match m.headers with
  | some h => h.OptionalHeader.DataDirectory.getD idx ⟨0, 0⟩
  | none => ⟨0, 0⟩

/-- Go `Module.Free` from `memmod_windows.go`: notify the entry point with
`DLL_PROCESS_DETACH` if `initialized` (clearing the flag), free each handle
of `modules` in slice order (setting it to `nil`), release the image
reservation if `codeBase` is nonzero (zeroing it), and release every blocker
allocation (setting the list to `nil`). -/
def Module.Free (m : Module) : Module × List MemEvent :=
  let s1 := if m.initialized then
      ({ m with initialized := false },
        [MemEvent.entryCall m.entry DLL_PROCESS_DETACH])
    else (m, ([] : List MemEvent))
  let s2 := match s1.1.modules with
    | some hs => ({ s1.1 with modules := none }, hs.map MemEvent.freeLib)
    | none => (s1.1, ([] : List MemEvent))
  let s3 := if s2.1.codeBase ≠ 0 then
      ({ s2.1 with codeBase := 0 }, [MemEvent.release s2.1.codeBase])
    else (s2.1, ([] : List MemEvent))
  let s4 := match s3.1.blockedMemory with
    | some addrs => ({ s3.1 with blockedMemory := none },
        addrs.map MemEvent.release)
    | none => (s3.1, ([] : List MemEvent))
  (s4.1, s1.2 ++ s2.2 ++ s3.2 ++ s4.2)

/-- The event trace of the deferred `module.Free()` teardown. -/
def freeEvents (m : Module) : List MemEvent := (Module.Free m).2

/-- Errors returned by `ProcAddressByName` / `ProcAddressByOrdinal`. -/
inductive ProcError where
  | noExportTable
  | noNameExports
  | notFoundByName
  | ordinalTooLow
  | ordinalTooHigh
deriving DecidableEq

/-- Go `Module.ProcAddressByName` from `memmod_windows.go`: fail if the export
directory has size zero or `nameExports` is `nil`; look the name up; indices
strictly above `NumberOfFunctions` fail with the ordinal-too-high error;
otherwise return `codeBase` plus the 32-bit RVA read at
`AddressOfFunctions + idx*4`. -/
def Module.ProcAddressByName (m : Module) (name : String) :
    Except ProcError Nat :=
  if (m.headerDirectory IMAGE_DIRECTORY_ENTRY_EXPORT).Size = 0 then
    .error .noExportTable
  else
    match m.nameExports with
    | none => .error .noNameExports
    | some nameExports =>
        match nameExports.lookup name with
        | some idx =>
            if m.exports.NumberOfFunctions < idx then .error .ordinalTooHigh
            else .ok (m.codeBase
              + m.read32 (m.exports.AddressOfFunctions + idx * 4) % 2 ^ 32)
        | none => .error .notFoundByName

/-- Go `Module.ProcAddressByOrdinal` from `memmod_windows.go`: fail if the
export directory has size zero; ordinals below `exports.Base` fail with the
ordinal-too-low error; the index is the `uint16` difference
`ordinal - uint16(Base)`; indices strictly above `NumberOfFunctions` fail
with the ordinal-too-high error; otherwise read as for lookup by name. -/
def Module.ProcAddressByOrdinal (m : Module) (ordinal : Nat) :
    Except ProcError Nat :=
  if (m.headerDirectory IMAGE_DIRECTORY_ENTRY_EXPORT).Size = 0 then
    .error .noExportTable
  else if ordinal < m.exports.Base then
    .error .ordinalTooLow
  else
    let idx := (ordinal + 2 ^ 16 - m.exports.Base % 2 ^ 16) % 2 ^ 16
    if m.exports.NumberOfFunctions < idx then .error .ordinalTooHigh
    else .ok (m.codeBase
      + m.read32 (m.exports.AddressOfFunctions + idx * 4) % 2 ^ 32)

/-- Errors surfaced by `LoadLibrary`, one tag per `return` site. -/
inductive LoadError where
  | incompleteDosHeader
  | notMSDOS
  | incompleteNtHeaders
  | notNT
  | foreignPlatform
  | unalignedSection
  | sectionNotPageAligned
  | allocFailed
  | reallocFailed
  | incompleteHeaders
  | incompleteSection
  | dependencyLoadFailed
  | symbolResolutionFailed
  | dllInitFailed
deriving DecidableEq

/-- The host environment consumed by the loader: system information,
virtual-memory reservation outcomes, the OS loader, and the value returned
by the image's entry point on `DLL_PROCESS_ATTACH`.  `allocPreferred` /
`allocArbitrary` are the results of `VirtualAlloc` at the preferred image
base and at an arbitrary address; `reAlloc` is the outcome of the
4-GiB-boundary re-reservation. -/
structure Env where
  pageSize : Nat
  machine : Nat
  allocPreferred : Option Nat
  allocArbitrary : Option Nat
  reAlloc : Option (Nat × List Nat)
  loadLibraryA : Nat → Option Nat
  getProcOrdinal : Nat → Nat → Option Nat
  getProcName : Nat → Nat → Option Nat
  entryResult : Nat

/-- The reservation attempt of `LoadLibrary`: first at the preferred
`ImageBase`, then at an arbitrary position. -/
def allocImage (env : Env) : Option Nat :=
  match env.allocPreferred with
  | some base => some base
  | none => env.allocArbitrary

/-- Modelled from the spec: `check4GBBoundaries` (§4.2.2) is not under
`src/`.  If the reservation does not straddle a 4 GiB boundary it is kept
unchanged; otherwise the region is re-reserved past the boundary using
blocker allocations (outcome supplied by the environment), the blockers
being retained by the module; on failure the original reservation is left
to the deferred `Free`. -/
def check4GBBoundaries (env : Env) (codeBase alignedImageSize : Nat) :
    Option (Nat × List Nat) × List MemEvent :=
  if codeBase >>> 32 = (codeBase + alignedImageSize - 1) >>> 32 then
    (some (codeBase, []), [])
  else
    match env.reAlloc with
    | some (newBase, blockers) =>
        (some (newBase, blockers),
          MemEvent.release codeBase
            :: blockers.map
                (fun b => MemEvent.alloc b alignedImageSize PAGE_READWRITE)
            ++ [MemEvent.alloc newBase alignedImageSize PAGE_READWRITE])
    | none => (none, [])

/-- The `lastSectionEnd` computation of `LoadLibrary`: the largest
`VirtualAddress` plus `SizeOfRawData` (or `SectionAlignment` for sections
without raw data) over all sections. -/
def lastSectionEnd (old : IMAGE_NT_HEADERS) : Nat :=
  old.Sections.foldl
    (fun acc s =>
      let endOfSection :=
        if s.SizeOfRawData = 0 then
          s.VirtualAddress + old.OptionalHeader.SectionAlignment
        else s.VirtualAddress + s.SizeOfRawData
      if acc < endOfSection then endOfSection else acc) 0

/-- Go `copySections` from `memmod_windows.go`, one section at a time: a
section without raw data commits and zeroes `SectionAlignment` bytes (when
the alignment is nonzero) and stores the low 32 bits of its mapped address
in `PhysicalAddress`; a section with raw data is rejected when its raw
range exceeds the buffer, otherwise committed and copied, its
`PhysicalAddress` receiving the low 32 bits of the committed base (the
`VirtualAlloc` return, the mapped address rounded down to a page
boundary).  Returns the optional error, the updated section table and the
commit events. -/
def copySectionsGo (data : PEData) (codeBase pageSize oldAlign : Nat) :
    List IMAGE_SECTION_HEADER →
      Option LoadError × List IMAGE_SECTION_HEADER × List MemEvent
  | [] => (none, [], [])
  | s :: rest =>
      if s.SizeOfRawData = 0 then
        if oldAlign = 0 then
          let r := copySectionsGo data codeBase pageSize oldAlign rest
          (r.1, s :: r.2.1, r.2.2)
        else
          let dest := codeBase + s.VirtualAddress
          let s' := { s with PhysicalAddress := dest % 2 ^ 32 }
          let r := copySectionsGo data codeBase pageSize oldAlign rest
          (r.1, s' :: r.2.1,
            MemEvent.alloc (alignDown dest pageSize) oldAlign PAGE_READWRITE
              :: r.2.2)
      else
        if data.size < s.PointerToRawData + s.SizeOfRawData then
          (some .incompleteSection, s :: rest, [])
        else
          let dest := alignDown (codeBase + s.VirtualAddress) pageSize
          let s' := { s with PhysicalAddress := dest % 2 ^ 32 }
          let r := copySectionsGo data codeBase pageSize oldAlign rest
          (r.1, s' :: r.2.1,
            MemEvent.alloc dest s.SizeOfRawData PAGE_READWRITE :: r.2.2)

/-- The patches applied for one relocation block: `(SizeOfBlock − 8) / 2`
16-bit entries, each with the type in the high 4 bits and the page offset
in the low 12; `HIGHLOW` patches 32 bits, `DIR64` patches 64 bits, every
other type is ignored. -/
def relocBlockEvents (codeBase : Nat) (b : IMAGE_BASE_RELOCATION) :
    List MemEvent :=
  (b.entries.take ((b.SizeOfBlock - 8) / 2)).filterMap fun relInfo =>
    if relInfo >>> 12 = IMAGE_REL_BASED_HIGHLOW then
      some (.patch32 (codeBase + b.VirtualAddress + (relInfo &&& 0xfff)))
    else if relInfo >>> 12 = IMAGE_REL_BASED_DIR64 then
      some (.patch64 (codeBase + b.VirtualAddress + (relInfo &&& 0xfff)))
    else none

/-- Go `performBaseRelocation` from `memmod_windows.go`: with an empty
relocation directory the result is `delta == 0` and nothing is patched;
otherwise every block up to the zero-`VirtualAddress` terminator is walked
and the result is `true`. -/
def performBaseRelocation (data : PEData) (m : Module) (delta : Nat) :
    Bool × List MemEvent :=
  if (m.headerDirectory IMAGE_DIRECTORY_ENTRY_BASERELOC).Size = 0 then
    (decide (delta = 0), [])
  else
    (true,
      ((data.relocBlocks.takeWhile fun b => 0 < b.VirtualAddress).map
        (relocBlockEvents m.codeBase)).flatten)

/-- Modelled from the spec: `IMAGE_SNAP_BY_ORDINAL` (§4.2.5: the high bit of
a thunk marks an ordinal import; the constants file is not under `src/`). -/
def IMAGE_SNAP_BY_ORDINAL (thunk : Nat) : Bool :=
  thunk &&& 2 ^ 63 ≠ 0

/-- Modelled from the spec: `IMAGE_ORDINAL` (§4.2.5: the ordinal is the low
16 bits of the thunk). -/
def IMAGE_ORDINAL (thunk : Nat) : Nat :=
  thunk &&& 0xffff

/-- The thunk-resolution loop of `buildImportTable`: each thunk resolves by
ordinal or by name through the OS loader; `true` iff every thunk
resolves. -/
def resolveThunks (env : Env) (codeBase handle : Nat) : List Nat → Bool
  | [] => true
  | t :: rest =>
      match (if IMAGE_SNAP_BY_ORDINAL t then
              env.getProcOrdinal handle (IMAGE_ORDINAL t)
            else env.getProcName handle (codeBase + t)) with
      | none => false
      | some _ => resolveThunks env codeBase handle rest

/-- The descriptor loop of `buildImportTable`: load each dependency,
resolve its thunks (using `OriginalFirstThunk` when present, otherwise
`FirstThunk`), appending the handle to the dependency list; on a resolution
failure the just-loaded handle is freed and the loop stops with the handles
collected so far. -/
def importLoop (env : Env) (codeBase : Nat) :
    List IMAGE_IMPORT_DESCRIPTOR → Option LoadError × List Nat × List MemEvent
  | [] => (none, [], [])
  | d :: rest =>
      match env.loadLibraryA d.Name with
      | none => (some .dependencyLoadFailed, [], [])
      | some handle =>
          let thunks :=
            (if d.OriginalFirstThunk ≠ 0 then d.origThunks
             else d.firstThunks).takeWhile (· ≠ 0)
          if resolveThunks env codeBase handle thunks then
            let r := importLoop env codeBase rest
            (r.1, handle :: r.2.1, MemEvent.loadLib d.Name :: r.2.2)
          else
            (some .symbolResolutionFailed, [],
              [MemEvent.loadLib d.Name, MemEvent.freeLib handle])

/-- Go `realSectionSize` from `memmod_windows.go`. -/
def realSectionSize (opt : IMAGE_OPTIONAL_HEADER)
    (s : IMAGE_SECTION_HEADER) : Nat :=
  if s.SizeOfRawData ≠ 0 then s.SizeOfRawData
  else if s.Characteristics &&& IMAGE_SCN_CNT_INITIALIZED_DATA ≠ 0 then
    opt.SizeOfInitializedData
  else if s.Characteristics &&& IMAGE_SCN_CNT_UNINITIALIZED_DATA ≠ 0 then
    opt.SizeOfUninitializedData
  else 0

/-- The accumulator of `finalizeSections` (`sectionFinalizeData`). -/
structure SectionFinalizeData where
  address : Nat
  alignedAddress : Nat
  size : Nat
  characteristics : Nat
  isLast : Bool
deriving DecidableEq

/-- The protection table of `finalizeSection`, indexed by the
execute/read/write bits (bits 29–31 of the characteristics). -/
def ProtectionFlags : List Nat :=
  [PAGE_NOACCESS, PAGE_EXECUTE, PAGE_READONLY, PAGE_EXECUTE_READ,
   PAGE_WRITECOPY, PAGE_EXECUTE_WRITECOPY, PAGE_READWRITE,
   PAGE_EXECUTE_READWRITE]

/-- Go `finalizeSection` from `memmod_windows.go`: discardable page groups
covering whole pages are decommitted; other groups receive the protection
derived from their characteristics (ORed with `PAGE_NOCACHE` when
`MEM_NOT_CACHED` is set). -/
def finalizeSection (pageSize sectionAlignment : Nat)
    (sd : SectionFinalizeData) : List MemEvent :=
  if sd.size = 0 then []
  else if sd.characteristics &&& IMAGE_SCN_MEM_DISCARDABLE ≠ 0 then
    if sd.address = sd.alignedAddress ∧
        (sd.isLast ∨ sectionAlignment = pageSize ∨
          sd.size % pageSize = 0) then
      [MemEvent.decommit sd.address sd.size]
    else []
  else
    let protection0 :=
      ProtectionFlags.getD (sd.characteristics % 2 ^ 32 >>> 29) 0
    let protection :=
      if sd.characteristics &&& IMAGE_SCN_MEM_NOT_CACHED ≠ 0 then
        protection0 ||| PAGE_NOCACHE
      else protection0
    [MemEvent.protect sd.address sd.size protection]

/-- The grouping loop of `finalizeSections`: sections sharing a page are
merged (ORing characteristics, clearing `MEM_DISCARDABLE` whenever a member
is non-discardable) before the group's protection is applied. -/
def finalizeLoop (pageSize sectionAlignment : Nat)
    (opt : IMAGE_OPTIONAL_HEADER) (imageOffset : Nat) :
    SectionFinalizeData → List IMAGE_SECTION_HEADER → List MemEvent
  | sd, [] => finalizeSection pageSize sectionAlignment { sd with isLast := true }
  | sd, s :: rest =>
      let sectionAddress := s.PhysicalAddress ||| imageOffset
      let alignedAddress := alignDown sectionAddress pageSize
      let sectionSize := realSectionSize opt s
      if sd.alignedAddress = alignedAddress ∨
          alignedAddress < sd.address + sd.size then
        let ch :=
          if s.Characteristics &&& IMAGE_SCN_MEM_DISCARDABLE = 0 ∨
              sd.characteristics &&& IMAGE_SCN_MEM_DISCARDABLE = 0 then
            (sd.characteristics ||| s.Characteristics) &&& 0xFDFFFFFF
          else sd.characteristics ||| s.Characteristics
        finalizeLoop pageSize sectionAlignment opt imageOffset
          { sd with characteristics := ch,
                    size := sectionAddress + sectionSize - sd.address } rest
      else
        finalizeSection pageSize sectionAlignment sd
          ++ finalizeLoop pageSize sectionAlignment opt imageOffset
              ⟨sectionAddress, alignedAddress, sectionSize,
                s.Characteristics, false⟩ rest

/-- Go `finalizeSections` from `memmod_windows.go`; the upper 32 bits of each
section address are reconstructed from the module's `imageOffset`
(`ImageBase & 0xffffffff00000000`, modelled from the spec §9 since the
helper is not under `src/`). -/
def finalizeSections (pageSize : Nat) (h : IMAGE_NT_HEADERS) :
    List MemEvent :=
  match h.Sections with
  | [] => []
  | s0 :: rest =>
      let imageOffset := h.OptionalHeader.ImageBase &&& 0xffffffff00000000
      finalizeLoop pageSize h.OptionalHeader.SectionAlignment
        h.OptionalHeader imageOffset
        { address := s0.PhysicalAddress ||| imageOffset,
          alignedAddress := alignDown (s0.PhysicalAddress ||| imageOffset)
            pageSize,
          size := realSectionSize h.OptionalHeader s0,
          characteristics := s0.Characteristics,
          isLast := false } rest

/-- Go `executeTLS` from `memmod_windows.go`: when the TLS directory is
present, every callback up to the zero terminator is invoked. -/
def executeTLS (data : PEData) (m : Module) : List MemEvent :=
  if (m.headerDirectory IMAGE_DIRECTORY_ENTRY_TLS).VirtualAddress = 0 then []
  else if data.tlsAddressOfCallBacks = 0 then []
  else (data.tlsCallbacks.takeWhile (· ≠ 0)).map MemEvent.tlsCall

/-- Go `buildNameExports` from `memmod_windows.go`, as called (result ignored)
by `LoadLibrary`: with a nonempty export directory exposing at least one
name and one function, the name-to-ordinal map is built; otherwise the
module is left unchanged (`nameExports` stays `nil`). -/
def buildNameExports (data : PEData) (m : Module) : Module :=
  if (m.headerDirectory IMAGE_DIRECTORY_ENTRY_EXPORT).Size = 0 then m
  else if data.exports.NumberOfNames = 0 ∨
      data.exports.NumberOfFunctions = 0 then m
  else { m with nameExports := some data.exportNames }

/-- The `blockedMemory` list handed to the module: `nil` when the 4 GiB
boundary handling allocated no blockers. -/
def blockedOf (blockers : List Nat) : Option (List Nat) :=
  if blockers = [] then none else some blockers

/-- The relocation step of `LoadLibrary`: `performBaseRelocation` is invoked
only for a nonzero delta, `isRelocated` being set directly otherwise. -/
def relocStep (data : PEData) (m : Module) (delta : Nat) :
    Bool × List MemEvent :=
  if delta ≠ 0 then performBaseRelocation data m delta else (true, [])

/-- The tail of `LoadLibrary` after imports are linked: section
finalization, TLS callbacks, the entry-point notification (a zero return
fails the load with the DLL-initialization error, the deferred `Free`
tearing the module down; a nonzero return sets `initialized`), and the
ignored-export index build. -/
def loadFinal (env : Env) (data : PEData) (m : Module)
    (evs : List MemEvent) : Except LoadError Module × List MemEvent :=
  let fev := match m.headers with
    | some h => finalizeSections m.pageSize h
    | none => []
  let tev := executeTLS data m
  let aoep := match m.headers with
    | some h => h.OptionalHeader.AddressOfEntryPoint
    | none => 0
  if aoep ≠ 0 then
    let m5 := { m with entry := m.codeBase + aoep }
    if m5.isDLL then
      if env.entryResult = 0 then
        (.error .dllInitFailed,
          evs ++ fev ++ tev
            ++ [MemEvent.entryCall (m.codeBase + aoep) DLL_PROCESS_ATTACH]
            ++ freeEvents m5)
      else
        (.ok (buildNameExports data { m5 with initialized := true }),
          evs ++ fev ++ tev
            ++ [MemEvent.entryCall (m.codeBase + aoep) DLL_PROCESS_ATTACH])
    else
      (.ok (buildNameExports data m5), evs ++ fev ++ tev)
  else
    (.ok (buildNameExports data m), evs ++ fev ++ tev)

/-- The middle of `LoadLibrary` once the buffer is mapped: section copy,
base relocation (the delta being the 64-bit difference between the actual
and preferred bases; a zero reloc-directory size makes
`performBaseRelocation` report `delta == 0`, recorded in `isRelocated`
without failing the load), and import resolution. -/
def loadMapped (env : Env) (data : PEData) (m0 : Module)
    (old : IMAGE_NT_HEADERS) (ev1 : List MemEvent) :
    Except LoadError Module × List MemEvent :=
  let cs := copySectionsGo data m0.codeBase env.pageSize
      old.OptionalHeader.SectionAlignment old.Sections
  let newHeaders : IMAGE_NT_HEADERS :=
    { old with
        OptionalHeader := { old.OptionalHeader with ImageBase := m0.codeBase },
        Sections := cs.2.1 }
  let m1 := { m0 with headers := some newHeaders }
  match cs.1 with
  | some e => (.error e, ev1 ++ cs.2.2 ++ freeEvents m1)
  | none =>
      let locationDelta :=
        (m0.codeBase + (2 ^ 64 - old.OptionalHeader.ImageBase % 2 ^ 64))
          % 2 ^ 64
      let reloc := relocStep data m1 locationDelta
      let m2 := { m1 with isRelocated := reloc.1 }
      let ev2 := ev1 ++ cs.2.2 ++ reloc.2
      if (m2.headerDirectory IMAGE_DIRECTORY_ENTRY_IMPORT).Size = 0 then
        loadFinal env data m2 ev2
      else
        let imp := importLoop env m2.codeBase
          (data.importDescs.takeWhile fun d => d.Name ≠ 0)
        let m3 := { m2 with modules := some imp.2.1 }
        match imp.1 with
        | some e => (.error e, ev2 ++ imp.2.2 ++ freeEvents m3)
        | none => loadFinal env data m3 (ev2 ++ imp.2.2)

/-- The allocation stage of `LoadLibrary`: the image reservation (preferred
base, then arbitrary), the 4 GiB boundary handling, and the `SizeOfHeaders`
buffer-length check, which the source performs only after the image has
been reserved; on its failure the deferred `Free` releases the
reservation. -/
def loadImage (env : Env) (data : PEData) :
    Except LoadError Module × List MemEvent :=
  let old := data.ntHeaders
  let alignedImageSize := alignUp old.OptionalHeader.SizeOfImage env.pageSize
  match allocImage env with
  | none => (.error .allocFailed, [])
  | some base0 =>
      let ev0 := [MemEvent.alloc base0 alignedImageSize PAGE_READWRITE]
      match check4GBBoundaries env base0 alignedImageSize with
      | (none, bev) =>
          let m : Module := { emptyModule with
            isDLL := old.FileHeader.Characteristics &&& IMAGE_FILE_DLL ≠ 0,
            pageSize := env.pageSize, codeBase := base0,
            exports := data.exports, read32 := data.read32 }
          (.error .reallocFailed, ev0 ++ bev ++ freeEvents m)
      | (some (codeBase, blockers), bev) =>
          let m0 : Module := { emptyModule with
            isDLL := old.FileHeader.Characteristics &&& IMAGE_FILE_DLL ≠ 0,
            pageSize := env.pageSize, codeBase := codeBase,
            blockedMemory := blockedOf blockers,
            exports := data.exports, read32 := data.read32 }
          if data.size < old.OptionalHeader.SizeOfHeaders then
            (.error .incompleteHeaders, ev0 ++ bev ++ freeEvents m0)
          else
            loadMapped env data m0 old
              (ev0 ++ bev
                ++ [MemEvent.alloc codeBase old.OptionalHeader.SizeOfHeaders
                      PAGE_READWRITE])

/-- Go `LoadLibrary` from `memmod_windows.go`: the header checks in source
order (DOS-header size, DOS magic, NT-headers bound at `e_lfanew`, NT
signature, host machine, `SectionAlignment` low bit, section layout versus
`SizeOfImage`), then the allocation pipeline. -/
def LoadLibrary (env : Env) (data : PEData) :
    Except LoadError Module × List MemEvent :=
  if data.size < sizeofIMAGE_DOS_HEADER then
    (.error .incompleteDosHeader, [])
  else if data.e_magic ≠ IMAGE_DOS_SIGNATURE then
    (.error .notMSDOS, [])
  else if data.size < data.e_lfanew + sizeofIMAGE_NT_HEADERS then
    (.error .incompleteNtHeaders, [])
  else if data.ntHeaders.Signature ≠ IMAGE_NT_SIGNATURE then
    (.error .notNT, [])
  else if data.ntHeaders.FileHeader.Machine ≠ env.machine then
    (.error .foreignPlatform, [])
  else if data.ntHeaders.OptionalHeader.SectionAlignment &&& 1 ≠ 0 then
    (.error .unalignedSection, [])
  else if alignUp data.ntHeaders.OptionalHeader.SizeOfImage env.pageSize
      ≠ alignUp (lastSectionEnd data.ntHeaders) env.pageSize then
    (.error .sectionNotPageAligned, [])
  else loadImage env data

section FreeLemmas

/-- The handles passed to `FreeLibrary`, in trace order. -/
def freeLibEvents (evs : List MemEvent) : List Nat :=
  evs.filterMap fun e => match e with
    | MemEvent.freeLib h => some h
    | _ => none

theorem freeLibEvents_append (a b : List MemEvent) :
    freeLibEvents (a ++ b) = freeLibEvents a ++ freeLibEvents b :=
  List.filterMap_append a b _

@[simp] theorem freeLibEvents_nil : freeLibEvents [] = [] := rfl

@[simp] theorem freeLibEvents_cons_entryCall (a r : Nat) (t : List MemEvent) :
    freeLibEvents (MemEvent.entryCall a r :: t) = freeLibEvents t := rfl

@[simp] theorem freeLibEvents_cons_release (a : Nat) (t : List MemEvent) :
    freeLibEvents (MemEvent.release a :: t) = freeLibEvents t := rfl

@[simp] theorem freeLibEvents_cons_freeLib (h : Nat) (t : List MemEvent) :
    freeLibEvents (MemEvent.freeLib h :: t) = h :: freeLibEvents t := rfl

theorem freeLibEvents_map_freeLib (hs : List Nat) :
    freeLibEvents (hs.map MemEvent.freeLib) = hs := by
  induction hs with
  | nil => rfl
  | cons h t ih => rw [List.map_cons, freeLibEvents_cons_freeLib, ih]

theorem freeLibEvents_map_release (bs : List Nat) :
    freeLibEvents (bs.map MemEvent.release) = [] := by
  induction bs with
  | nil => rfl
  | cons b t ih => rw [List.map_cons, freeLibEvents_cons_release, ih]

end FreeLemmas

/-- C8: `Free` is idempotent in every module state, including partially
constructed ones: a second call performs no effect (it emits no events) and
leaves the module state equal to the state after the first call. -/
theorem free_idempotent (m : Module) :
    Module.Free (Module.Free m).1 = ((Module.Free m).1, []) := by
  rcases m with ⟨hdr, cb, mods, init, dll, rel, nex, ent, ps, bm, ex, r32⟩
  cases init <;> rcases mods with _ | hs <;> rcases bm with _ | bs <;>
    by_cases hcb : cb = 0 <;>
    simp [Module.Free, hcb]

/-- C7 amended: `Free` releases the dependency-library handles in insertion
(forward) order of the module's dependency list, not in reverse order. -/
theorem free_releases_insertion_order (m : Module) (hs : List Nat)
    (h : m.modules = some hs) :
    freeLibEvents (Module.Free m).2 = hs := by
  rcases m with ⟨hdr, cb, mods, init, dll, rel, nex, ent, ps, bm, ex, r32⟩
  simp only at h
  subst h
  cases init <;> rcases bm with _ | bs <;> by_cases hcb : cb = 0 <;>
    simp [Module.Free, hcb, freeLibEvents_append, freeLibEvents_map_freeLib,
      freeLibEvents_map_release]

section EventLemmas

/-- The header-check errors reported before any allocation takes place. -/
def earlyHeaderErrors : List LoadError :=
  [.incompleteDosHeader, .notMSDOS, .incompleteNtHeaders, .notNT,
   .foreignPlatform, .unalignedSection, .sectionNotPageAligned]

/-- Whether an event is the `DLL_PROCESS_ATTACH` entry-point invocation. -/
def MemEvent.isAttach : MemEvent → Bool
  | .entryCall _ r => decide (r = DLL_PROCESS_ATTACH)
  | _ => false

/-- Whether an event is a `VirtualProtect` page-protection change. -/
def MemEvent.isProtect : MemEvent → Bool
  | .protect _ _ _ => true
  | _ => false

/-- Whether an event is a successful `VirtualAlloc`. -/
def MemEvent.isAlloc : MemEvent → Bool
  | .alloc _ _ _ => true
  | _ => false

def NoAttach (evs : List MemEvent) : Prop := ∀ e ∈ evs, e.isAttach = false

def NoProtect (evs : List MemEvent) : Prop := ∀ e ∈ evs, e.isProtect = false

theorem noAttach_nil : NoAttach [] := by intro e he; simp at he

theorem noAttach_append {a b : List MemEvent} (ha : NoAttach a)
    (hb : NoAttach b) : NoAttach (a ++ b) := by
  intro e he
  rcases List.mem_append.mp he with h | h
  · exact ha e h
  · exact hb e h

theorem noAttach_cons {e : MemEvent} {t : List MemEvent}
    (he : e.isAttach = false) (ht : NoAttach t) : NoAttach (e :: t) := by
  intro x hx
  rcases List.mem_cons.mp hx with h | h
  · exact h ▸ he
  · exact ht x h

theorem noAttach_map_freeLib (hs : List Nat) :
    NoAttach (hs.map MemEvent.freeLib) := by
  intro e he
  obtain ⟨x, _, rfl⟩ := List.mem_map.mp he
  rfl

theorem noAttach_map_release (bs : List Nat) :
    NoAttach (bs.map MemEvent.release) := by
  intro e he
  obtain ⟨x, _, rfl⟩ := List.mem_map.mp he
  rfl

theorem noAttach_free (m : Module) : NoAttach (Module.Free m).2 := by
  simp only [Module.Free]
  repeat' apply noAttach_append
  all_goals repeat' split
  all_goals
    first
    | exact noAttach_nil
    | exact noAttach_cons rfl noAttach_nil
    | exact noAttach_map_freeLib _
    | exact noAttach_map_release _

theorem noAttach_copySections (data : PEData) (cb ps oa : Nat)
    (secs : List IMAGE_SECTION_HEADER) :
    NoAttach (copySectionsGo data cb ps oa secs).2.2 := by
  induction secs with
  | nil => exact noAttach_nil
  | cons s rest ih =>
      unfold copySectionsGo
      repeat' split
      all_goals
        first
        | exact noAttach_nil
        | exact noAttach_cons rfl ih
        | exact ih

theorem noAttach_relocBlock (cb : Nat) (b : IMAGE_BASE_RELOCATION) :
    NoAttach (relocBlockEvents cb b) := by
  intro e he
  unfold relocBlockEvents at he
  obtain ⟨x, _, hfx⟩ := List.mem_filterMap.mp he
  split at hfx
  · cases hfx; rfl
  · split at hfx
    · cases hfx; rfl
    · cases hfx

theorem noAttach_reloc (data : PEData) (m : Module) (delta : Nat) :
    NoAttach (performBaseRelocation data m delta).2 := by
  unfold performBaseRelocation
  split
  · exact noAttach_nil
  · intro e he
    simp only [List.mem_flatten, List.mem_map] at he
    obtain ⟨l, ⟨b, _, rfl⟩, hl⟩ := he
    exact noAttach_relocBlock m.codeBase b e hl

theorem noAttach_importLoop (env : Env) (cb : Nat)
    (descs : List IMAGE_IMPORT_DESCRIPTOR) :
    NoAttach (importLoop env cb descs).2.2 := by
  induction descs with
  | nil => exact noAttach_nil
  | cons d rest ih =>
      simp only [importLoop]
      repeat' split
      all_goals
        first
        | exact noAttach_nil
        | exact noAttach_cons rfl ih
        | exact noAttach_cons rfl (noAttach_cons rfl noAttach_nil)

theorem noAttach_finalizeSection (ps sa : Nat) (sd : SectionFinalizeData) :
    NoAttach (finalizeSection ps sa sd) := by
  unfold finalizeSection
  repeat' split
  all_goals
    first
    | exact noAttach_nil
    | exact noAttach_cons rfl noAttach_nil

theorem noAttach_finalizeLoop (ps sa : Nat) (opt : IMAGE_OPTIONAL_HEADER)
    (io : Nat) (sd : SectionFinalizeData)
    (secs : List IMAGE_SECTION_HEADER) :
    NoAttach (finalizeLoop ps sa opt io sd secs) := by
  induction secs generalizing sd with
  | nil => exact noAttach_finalizeSection ps sa _
  | cons s rest ih =>
      simp only [finalizeLoop]
      split
      · exact ih _
      · exact noAttach_append (noAttach_finalizeSection ps sa _) (ih _)

theorem noAttach_finalizeSections (ps : Nat) (h : IMAGE_NT_HEADERS) :
    NoAttach (finalizeSections ps h) := by
  unfold finalizeSections
  split
  · exact noAttach_nil
  · exact noAttach_finalizeLoop _ _ _ _ _ _

theorem noAttach_executeTLS (data : PEData) (m : Module) :
    NoAttach (executeTLS data m) := by
  unfold executeTLS
  repeat' split
  all_goals
    first
    | exact noAttach_nil
    | intro e he
  obtain ⟨x, _, rfl⟩ := List.mem_map.mp he
  rfl

theorem noAttach_check4GB (env : Env) (cb sz : Nat) :
    NoAttach (check4GBBoundaries env cb sz).2 := by
  unfold check4GBBoundaries
  split
  · exact noAttach_nil
  · split
    · apply noAttach_cons
      · rfl
      · apply noAttach_append
        · intro e he
          obtain ⟨x, _, rfl⟩ := List.mem_map.mp he
          rfl
        · exact noAttach_cons rfl noAttach_nil
    · exact noAttach_nil

theorem noProtect_nil : NoProtect [] := by intro e he; simp at he

theorem noProtect_cons {e : MemEvent} {t : List MemEvent}
    (he : e.isProtect = false) (ht : NoProtect t) : NoProtect (e :: t) := by
  intro x hx
  rcases List.mem_cons.mp hx with h | h
  · exact h ▸ he
  · exact ht x h

theorem noProtect_append {a b : List MemEvent} (ha : NoProtect a)
    (hb : NoProtect b) : NoProtect (a ++ b) := by
  intro e he
  rcases List.mem_append.mp he with h | h
  · exact ha e h
  · exact hb e h

theorem noProtect_map_freeLib (hs : List Nat) :
    NoProtect (hs.map MemEvent.freeLib) := by
  intro e he
  obtain ⟨x, _, rfl⟩ := List.mem_map.mp he
  rfl

theorem noProtect_map_release (bs : List Nat) :
    NoProtect (bs.map MemEvent.release) := by
  intro e he
  obtain ⟨x, _, rfl⟩ := List.mem_map.mp he
  rfl

theorem noProtect_free (m : Module) : NoProtect (Module.Free m).2 := by
  simp only [Module.Free]
  repeat' apply noProtect_append
  all_goals repeat' split
  all_goals
    first
    | exact noProtect_nil
    | exact noProtect_cons rfl noProtect_nil
    | exact noProtect_map_freeLib _
    | exact noProtect_map_release _

theorem noProtect_check4GB (env : Env) (cb sz : Nat) :
    NoProtect (check4GBBoundaries env cb sz).2 := by
  unfold check4GBBoundaries
  split
  · exact noProtect_nil
  · split
    · apply noProtect_cons
      · rfl
      · apply noProtect_append
        · intro e he
          obtain ⟨x, _, rfl⟩ := List.mem_map.mp he
          rfl
        · exact noProtect_cons rfl noProtect_nil
    · exact noProtect_nil

end EventLemmas

section PipelineLemmas

@[simp] theorem buildNameExports_initialized (data : PEData) (m : Module) :
    (buildNameExports data m).initialized = m.initialized := by
  unfold buildNameExports
  repeat' split
  all_goals rfl

@[simp] theorem buildNameExports_isDLL (data : PEData) (m : Module) :
    (buildNameExports data m).isDLL = m.isDLL := by
  unfold buildNameExports
  repeat' split
  all_goals rfl

@[simp] theorem buildNameExports_entry (data : PEData) (m : Module) :
    (buildNameExports data m).entry = m.entry := by
  unfold buildNameExports
  repeat' split
  all_goals rfl

@[simp] theorem buildNameExports_codeBase (data : PEData) (m : Module) :
    (buildNameExports data m).codeBase = m.codeBase := by
  unfold buildNameExports
  repeat' split
  all_goals rfl

@[simp] theorem buildNameExports_isRelocated (data : PEData) (m : Module) :
    (buildNameExports data m).isRelocated = m.isRelocated := by
  unfold buildNameExports
  repeat' split
  all_goals rfl

@[simp] theorem buildNameExports_headers (data : PEData) (m : Module) :
    (buildNameExports data m).headers = m.headers := by
  unfold buildNameExports
  repeat' split
  all_goals rfl

theorem not_attach_mem {evs : List MemEvent} (hno : NoAttach evs) (a : Nat) :
    MemEvent.entryCall a DLL_PROCESS_ATTACH ∉ evs := by
  intro hmem
  have hfalse := hno _ hmem
  simp [MemEvent.isAttach] at hfalse

theorem headerDirectory_congr {m M : Module} (h : m.headers = M.headers)
    (idx : Nat) : m.headerDirectory idx = M.headerDirectory idx := by
  unfold Module.headerDirectory
  rw [h]

theorem relocStep_false (data : PEData) (m : Module) (delta : Nat)
    (hdir : (m.headerDirectory IMAGE_DIRECTORY_ENTRY_BASERELOC).Size = 0)
    (hdelta : delta ≠ 0) : (relocStep data m delta).1 = false := by
  unfold relocStep performBaseRelocation
  rw [if_pos hdelta, if_pos hdir]
  exact decide_eq_false hdelta

theorem noAttach_relocStep (data : PEData) (m : Module) (delta : Nat) :
    NoAttach (relocStep data m delta).2 := by
  unfold relocStep
  split
  · exact noAttach_reloc data m delta
  · exact noAttach_nil

/-- Invariant of the tail of the pipeline: starting from an uninitialized
module, the returned module is initialized exactly when it is a DLL with a
nonzero entry point whose `DLL_PROCESS_ATTACH` notification returned
nonzero, and the remaining fields are preserved. -/
theorem loadFinal_ok_inv (env : Env) (data : PEData) (M : Module)
    (evsIn : List MemEvent) (m : Module) (evs : List MemEvent)
    (hM : M.initialized = false)
    (h : loadFinal env data M evsIn = (Except.ok m, evs)) :
    (m.initialized = true →
        m.isDLL = true ∧ env.entryResult ≠ 0
          ∧ MemEvent.entryCall m.entry DLL_PROCESS_ATTACH ∈ evs)
  ∧ (env.entryResult = 0 → m.initialized = false)
  ∧ m.isRelocated = M.isRelocated
  ∧ m.headers = M.headers
  ∧ m.codeBase = M.codeBase := by
  simp only [loadFinal] at h
  split at h
  case isTrue haoep =>
    split at h
    case isTrue hdll =>
      split at h
      case isTrue hzero => simp at h
      case isFalse hzero =>
        simp only [Prod.mk.injEq, Except.ok.injEq] at h
        obtain ⟨hm, hevs⟩ := h
        subst hm
        subst hevs
        refine ⟨fun _ => ⟨by simpa using hdll, hzero, by simp⟩,
          fun hz => absurd hz hzero, by simp, by simp, by simp⟩
    case isFalse hdll =>
      simp only [Prod.mk.injEq, Except.ok.injEq] at h
      obtain ⟨hm, hevs⟩ := h
      subst hm
      subst hevs
      refine ⟨fun hinit => ?_, fun _ => by simp [hM], by simp, by simp,
        by simp⟩
      rw [buildNameExports_initialized] at hinit
      simp [hM] at hinit
  case isFalse haoep =>
    simp only [Prod.mk.injEq, Except.ok.injEq] at h
    obtain ⟨hm, hevs⟩ := h
    subst hm
    subst hevs
    refine ⟨fun hinit => ?_, fun _ => by simp [hM], by simp, by simp,
      by simp⟩
    rw [buildNameExports_initialized] at hinit
    simp [hM] at hinit

/-- Invariant of every successful `LoadLibrary` run: `initialized` holds
only for DLL images whose entry point returned nonzero after being invoked
with `DLL_PROCESS_ATTACH`; and with an empty relocation directory and a
nonzero delta the module is returned with `isRelocated = false`. -/
theorem LoadLibrary_ok_inv (env : Env) (data : PEData) (m : Module)
    (evs : List MemEvent) (h : LoadLibrary env data = (Except.ok m, evs)) :
    (m.initialized = true →
        m.isDLL = true ∧ env.entryResult ≠ 0
          ∧ MemEvent.entryCall m.entry DLL_PROCESS_ATTACH ∈ evs)
  ∧ (env.entryResult = 0 → m.initialized = false)
  ∧ ((m.headerDirectory IMAGE_DIRECTORY_ENTRY_BASERELOC).Size = 0 →
      (m.codeBase
          + (2 ^ 64 - data.ntHeaders.OptionalHeader.ImageBase % 2 ^ 64))
        % 2 ^ 64 ≠ 0 →
      m.isRelocated = false) := by
  unfold LoadLibrary at h
  iterate 7
    (split at h
     case isTrue => simp at h)
  simp only [loadImage] at h
  split at h
  case h_1 => simp at h
  case h_2 base0 =>
    split at h
    case h_1 bev heq4 => simp at h
    case h_2 codeBase blockers bev heq4 =>
      split at h
      case isTrue => simp at h
      case isFalse =>
        simp only [loadMapped] at h
        split at h
        case h_1 => simp at h
        case h_2 =>
          split at h
          case isTrue =>
            obtain ⟨p1, p2, hrel, hhdr, hcb⟩ :=
              loadFinal_ok_inv env data _ _ m evs rfl h
            refine ⟨p1, p2, fun hdir hdelta => ?_⟩
            rw [headerDirectory_congr hhdr] at hdir
            rw [hcb] at hdelta
            rw [hrel]
            dsimp only at hdir hdelta ⊢
            exact relocStep_false data _ _ hdir hdelta
          case isFalse =>
            split at h
            case h_1 => simp at h
            case h_2 =>
              obtain ⟨p1, p2, hrel, hhdr, hcb⟩ :=
                loadFinal_ok_inv env data _ _ m evs rfl h
              refine ⟨p1, p2, fun hdir hdelta => ?_⟩
              rw [headerDirectory_congr hhdr] at hdir
              rw [hcb] at hdelta
              rw [hrel]
              dsimp only at hdir hdelta ⊢
              exact relocStep_false data _ _ hdir hdelta

theorem noAttach_freeEvents (m : Module) : NoAttach (freeEvents m) :=
  noAttach_free m

theorem noProtect_freeEvents (m : Module) : NoProtect (freeEvents m) :=
  noProtect_free m

theorem noAttach_check4GB' (env : Env) (cb sz : Nat)
    {r : Option (Nat × List Nat) × List MemEvent}
    (h : check4GBBoundaries env cb sz = r) : NoAttach r.2 :=
  h ▸ noAttach_check4GB env cb sz

theorem noProtect_check4GB' (env : Env) (cb sz : Nat)
    {r : Option (Nat × List Nat) × List MemEvent}
    (h : check4GBBoundaries env cb sz = r) : NoProtect r.2 :=
  h ▸ noProtect_check4GB env cb sz

theorem copySectionsGo_error (data : PEData) (cb ps oa : Nat)
    (secs : List IMAGE_SECTION_HEADER) (e : LoadError)
    (h : (copySectionsGo data cb ps oa secs).1 = some e) :
    e = LoadError.incompleteSection := by
  induction secs with
  | nil => simp [copySectionsGo] at h
  | cons s rest ih =>
      simp only [copySectionsGo] at h
      repeat' split at h
      all_goals
        first
        | exact ih h
        | (injection h with h; exact h.symm)

theorem importLoop_error (env : Env) (cb : Nat)
    (descs : List IMAGE_IMPORT_DESCRIPTOR) (e : LoadError)
    (h : (importLoop env cb descs).1 = some e) :
    e = LoadError.dependencyLoadFailed
      ∨ e = LoadError.symbolResolutionFailed := by
  induction descs with
  | nil => simp [importLoop] at h
  | cons d rest ih =>
      simp only [importLoop] at h
      repeat' split at h
      all_goals
        first
        | exact ih h
        | (injection h with h; exact Or.inl h.symm)
        | (injection h with h; exact Or.inr h.symm)

/-- The only error the pipeline tail can produce is the DLL-initialization
failure, and only when the entry point returned zero. -/
theorem loadFinal_error_inv (env : Env) (data : PEData) (M : Module)
    (evsIn : List MemEvent) (e : LoadError) (evs : List MemEvent)
    (h : loadFinal env data M evsIn = (Except.error e, evs)) :
    e = LoadError.dllInitFailed ∧ env.entryResult = 0 := by
  simp only [loadFinal] at h
  split at h
  case isTrue =>
    split at h
    case isTrue =>
      split at h
      case isTrue hzero =>
        simp only [Prod.mk.injEq, Except.error.injEq] at h
        exact ⟨h.1.symm, hzero⟩
      case isFalse => simp at h
    case isFalse => simp at h
  case isFalse => simp at h

/-- Invariant of every failing `LoadLibrary` run: header-check failures
leave an empty event trace (they precede any allocation); the
`DLL_PROCESS_ATTACH` notification appears in a failing trace only for the
DLL-initialization failure with a zero entry result; and the
incomplete-headers failure leaves a trace without any page-protection
change. -/
theorem LoadLibrary_error_inv (env : Env) (data : PEData) (e : LoadError)
    (evs : List MemEvent) (h : LoadLibrary env data = (Except.error e, evs)) :
    (e ∈ earlyHeaderErrors → evs = [])
  ∧ ((∃ a, MemEvent.entryCall a DLL_PROCESS_ATTACH ∈ evs) →
        e = LoadError.dllInitFailed ∧ env.entryResult = 0)
  ∧ (e = LoadError.incompleteHeaders → NoProtect evs) := by
  unfold LoadLibrary at h
  iterate 7
    (split at h
     case isTrue =>
       simp only [Prod.mk.injEq, Except.error.injEq] at h
       obtain ⟨he, hevs⟩ := h
       subst he
       subst hevs
       exact ⟨fun _ => rfl,
         fun hex => absurd hex.choose_spec (List.not_mem_nil _),
         fun heq => absurd heq (by decide)⟩)
  simp only [loadImage] at h
  split at h
  case h_1 =>
    simp only [Prod.mk.injEq, Except.error.injEq] at h
    obtain ⟨he, hevs⟩ := h
    subst he
    subst hevs
    exact ⟨fun hmem => absurd hmem (by decide),
      fun hex => absurd hex.choose_spec (List.not_mem_nil _),
      fun heq => absurd heq (by decide)⟩
  case h_2 =>
    split at h
    case h_1 bev heq4 =>
      simp only [Prod.mk.injEq, Except.error.injEq] at h
      obtain ⟨he, hevs⟩ := h
      subst he
      subst hevs
      refine ⟨fun hmem => absurd hmem (by decide), ?_,
        fun heq => absurd heq (by decide)⟩
      intro hex
      obtain ⟨a, ha⟩ := hex
      refine absurd ha (not_attach_mem ?_ a)
      refine noAttach_append (noAttach_append ?_ ?_) ?_
      · exact noAttach_cons rfl noAttach_nil
      · exact noAttach_check4GB' env _ _ heq4
      · exact noAttach_freeEvents _
    case h_2 codeBase blockers bev heq4 =>
      split at h
      case isTrue =>
        simp only [Prod.mk.injEq, Except.error.injEq] at h
        obtain ⟨he, hevs⟩ := h
        subst he
        subst hevs
        refine ⟨fun hmem => absurd hmem (by decide), ?_, fun _ => ?_⟩
        · intro hex
          obtain ⟨a, ha⟩ := hex
          refine absurd ha (not_attach_mem ?_ a)
          refine noAttach_append (noAttach_append ?_ ?_) ?_
          · exact noAttach_cons rfl noAttach_nil
          · exact noAttach_check4GB' env _ _ heq4
          · exact noAttach_freeEvents _
        · refine noProtect_append (noProtect_append ?_ ?_) ?_
          · exact noProtect_cons rfl noProtect_nil
          · exact noProtect_check4GB' env _ _ heq4
          · exact noProtect_freeEvents _
      case isFalse =>
        simp only [loadMapped] at h
        split at h
        case h_1 eC heqC =>
          simp only [Prod.mk.injEq, Except.error.injEq] at h
          obtain ⟨he, hevs⟩ := h
          subst he
          subst hevs
          have heC := copySectionsGo_error data _ _ _ _ _ heqC
          subst heC
          refine ⟨fun hmem => absurd hmem (by decide), ?_,
            fun heq => absurd heq (by decide)⟩
          intro hex
          obtain ⟨a, ha⟩ := hex
          refine absurd ha (not_attach_mem ?_ a)
          refine noAttach_append (noAttach_append
            (noAttach_append (noAttach_append ?_ ?_) ?_) ?_) ?_
          · exact noAttach_cons rfl noAttach_nil
          · exact noAttach_check4GB' env _ _ heq4
          · exact noAttach_cons rfl noAttach_nil
          · exact noAttach_copySections _ _ _ _ _
          · exact noAttach_freeEvents _
        case h_2 =>
          split at h
          case isTrue =>
            obtain ⟨he, hzero⟩ := loadFinal_error_inv env data _ _ e evs h
            subst he
            exact ⟨fun hmem => absurd hmem (by decide),
              fun _ => ⟨rfl, hzero⟩, fun heq => absurd heq (by decide)⟩
          case isFalse =>
            split at h
            case h_1 eI heqI =>
              simp only [Prod.mk.injEq, Except.error.injEq] at h
              obtain ⟨he, hevs⟩ := h
              subst he
              subst hevs
              have heI := importLoop_error env _ _ _ heqI
              refine ⟨fun hmem => ?_, ?_, fun heq => ?_⟩
              · rcases heI with h' | h' <;> subst h' <;>
                  exact absurd hmem (by decide)
              · intro hex
                obtain ⟨a, ha⟩ := hex
                refine absurd ha (not_attach_mem ?_ a)
                refine noAttach_append (noAttach_append (noAttach_append
                  (noAttach_append (noAttach_append (noAttach_append ?_ ?_)
                    ?_) ?_) ?_) ?_) ?_
                · exact noAttach_cons rfl noAttach_nil
                · exact noAttach_check4GB' env _ _ heq4
                · exact noAttach_cons rfl noAttach_nil
                · exact noAttach_copySections _ _ _ _ _
                · exact noAttach_relocStep _ _ _
                · exact noAttach_importLoop _ _ _
                · exact noAttach_freeEvents _
              · rcases heI with h' | h' <;> subst h' <;>
                  exact absurd heq (by decide)
            case h_2 =>
              obtain ⟨he, hzero⟩ := loadFinal_error_inv env data _ _ e evs h
              subst he
              exact ⟨fun hmem => absurd hmem (by decide),
                fun _ => ⟨rfl, hzero⟩, fun heq => absurd heq (by decide)⟩

theorem free_initialized (m : Module) :
    ((Module.Free m).1).initialized = false := by
  rcases m with ⟨hdr, cb, mods, init, dll, rel, nex, ent, ps, bm, ex, r32⟩
  cases init <;> rcases mods with _ | hs <;> rcases bm with _ | bs <;>
    by_cases hcb : cb = 0 <;>
    simp [Module.Free, hcb]

end PipelineLemmas

/-- C1 amended: for every load in which the computed relocation delta is
nonzero and the base-relocation directory has size zero,
`performBaseRelocation` reports failure, but `LoadLibrary` does not fail: it
records the outcome in `isRelocated = false` and returns the loaded module
to the caller. -/
theorem reloc_absent_sets_isRelocated_false (env : Env) (data : PEData)
    (m : Module) (evs : List MemEvent)
    (h : LoadLibrary env data = (Except.ok m, evs))
    (hdir : (m.headerDirectory IMAGE_DIRECTORY_ENTRY_BASERELOC).Size = 0)
    (hdelta : (m.codeBase
        + (2 ^ 64 - data.ntHeaders.OptionalHeader.ImageBase % 2 ^ 64))
          % 2 ^ 64 ≠ 0) :
    m.isRelocated = false :=
  (LoadLibrary_ok_inv env data m evs h).2.2 hdir hdelta

/-- C3 amended: every header-validation check except the `SizeOfHeaders`
bound is performed before any virtual-memory allocation (their violations
leave an empty event trace); the `SizeOfHeaders` bound is checked only
after the image reservation, and its violation returns the
incomplete-headers error with no page-protection change (and hence no
executable mapping) having taken effect. -/
theorem header_checks_before_alloc (env : Env) (data : PEData) :
    (∀ e evs, LoadLibrary env data = (Except.error e, evs) →
        e ∈ earlyHeaderErrors → evs = [])
  ∧ (∀ evs,
      LoadLibrary env data = (Except.error LoadError.incompleteHeaders, evs) →
        ∀ ev ∈ evs, ev.isProtect = false) :=
  ⟨fun e evs h => (LoadLibrary_error_inv env data e evs h).1,
   fun evs h => (LoadLibrary_error_inv env data _ evs h).2.2 rfl⟩

/-- C6: in every module state produced by `LoadLibrary` (and after `Free`,
which clears the flag), `initialized = true` implies the image is a DLL and
the entry point was invoked with `DLL_PROCESS_ATTACH` and returned nonzero;
a zero entry return makes `LoadLibrary` fail with the DLL-initialization
error and `initialized` is never set. -/
theorem initialized_implies_dll_entry_success (env : Env) (data : PEData) :
    (∀ m evs, LoadLibrary env data = (Except.ok m, evs) →
        m.initialized = true →
        m.isDLL = true ∧ env.entryResult ≠ 0
          ∧ MemEvent.entryCall m.entry DLL_PROCESS_ATTACH ∈ evs)
  ∧ (env.entryResult = 0 →
      (∀ m evs, LoadLibrary env data = (Except.ok m, evs) →
          m.initialized = false)
        ∧ ∀ e evs, LoadLibrary env data = (Except.error e, evs) →
            (∃ a, MemEvent.entryCall a DLL_PROCESS_ATTACH ∈ evs) →
            e = LoadError.dllInitFailed)
  ∧ (∀ m : Module, ((Module.Free m).1).initialized = false) :=
  ⟨fun m evs h hinit => (LoadLibrary_ok_inv env data m evs h).1 hinit,
   fun hz =>
     ⟨fun m evs h => (LoadLibrary_ok_inv env data m evs h).2.1 hz,
      fun e evs h hex => ((LoadLibrary_error_inv env data e evs h).2.1 hex).1⟩,
   free_initialized⟩

section ConcreteRuns

/-- A data directory with all 16 entries empty. -/
def emptyDirs : List IMAGE_DATA_DIRECTORY :=
  List.replicate 16 ⟨0, 0⟩

/-- A single readable initialized-data section at RVA `0x1000`. -/
def sec1 : IMAGE_SECTION_HEADER :=
  { PhysicalAddress := 0, VirtualAddress := 0x1000, SizeOfRawData := 0x200,
    PointerToRawData := 0x400, Characteristics := 0x40000040 }

def optBase : IMAGE_OPTIONAL_HEADER :=
  { SectionAlignment := 0x1000, SizeOfInitializedData := 0,
    SizeOfUninitializedData := 0, AddressOfEntryPoint := 0,
    ImageBase := 0x10000000, SizeOfImage := 0x2000, SizeOfHeaders := 0x400,
    DataDirectory := emptyDirs }

def ntBase : IMAGE_NT_HEADERS :=
  { Signature := IMAGE_NT_SIGNATURE,
    FileHeader :=
      { Machine := 0x8664, NumberOfSections := 1,
        Characteristics := IMAGE_FILE_DLL },
    OptionalHeader := optBase,
    Sections := [sec1] }

/-- A minimal well-formed DLL image (one section, no imports, no
relocations, no exports, no entry point). -/
def imgBase : PEData :=
  { size := 0x600, e_magic := IMAGE_DOS_SIGNATURE, e_lfanew := 64,
    ntHeaders := ntBase, relocBlocks := [], importDescs := [],
    tlsAddressOfCallBacks := 0, tlsCallbacks := [],
    exports := ⟨0, 0, 0, 0, 0, 0⟩, exportNames := [],
    read32 := fun _ => 0 }

/-- An AMD64 host granting the preferred image base and reporting entry
success. -/
def envBase : Env :=
  { pageSize := 0x1000, machine := 0x8664,
    allocPreferred := some 0x10000000, allocArbitrary := none,
    reAlloc := none, loadLibraryA := fun _ => none,
    getProcOrdinal := fun _ _ => none, getProcName := fun _ _ => none,
    entryResult := 1 }

/-- A host on which the preferred base is taken, forcing a nonzero
relocation delta. -/
def c1env : Env :=
  { envBase with allocPreferred := none, allocArbitrary := some 0x200000 }

def c1mod : Module :=
  match (LoadLibrary c1env imgBase).1 with
  | .ok m => m
  | .error _ => emptyModule

/-- An image whose `SizeOfHeaders` exceeds the buffer length while every
other header check passes. -/
def c3img : PEData :=
  { imgBase with
      size := 0x400,
      ntHeaders := { ntBase with
        OptionalHeader := { optBase with SizeOfHeaders := 0x2000 } } }

/-- An image failing the DOS-magic check. -/
def c3bad : PEData := { imgBase with e_magic := 0 }

/-- A DLL image with an entry point at RVA `0x1000`. -/
def c6img : PEData :=
  { imgBase with
      ntHeaders := { ntBase with
        OptionalHeader := { optBase with AddressOfEntryPoint := 0x1000 } } }

def c6mod : Module :=
  match (LoadLibrary envBase c6img).1 with
  | .ok m => m
  | .error _ => emptyModule

/-- An image importing from two dependencies (name RVAs 100 and 200) with
empty thunk lists. -/
def c7img : PEData :=
  { imgBase with
      ntHeaders := { ntBase with
        OptionalHeader := { optBase with
          DataDirectory := emptyDirs.set 1 ⟨0x3000, 40⟩ } },
      importDescs :=
        [{ OriginalFirstThunk := 0, Name := 100, FirstThunk := 0x3100,
           origThunks := [], firstThunks := [] },
         { OriginalFirstThunk := 0, Name := 200, FirstThunk := 0x3200,
           origThunks := [], firstThunks := [] }] }

/-- A host resolving the two dependencies to handles `11` and `22`. -/
def c7env : Env :=
  { envBase with
      loadLibraryA := fun n =>
        if n = 100 then some 11 else if n = 200 then some 22 else none }

def c7mod : Module :=
  match (LoadLibrary c7env c7img).1 with
  | .ok m => m
  | .error _ => emptyModule

/-- A loaded module with three export-table entries (`NumberOfFunctions =
3`), one name mapped to ordinal index 3, and identity 32-bit reads. -/
def c9mod : Module :=
  { emptyModule with
      headers := some { ntBase with
        OptionalHeader := { optBase with
          DataDirectory := emptyDirs.set 0 ⟨0x2000, 1⟩ } },
      codeBase := 0x1000,
      nameExports := some [("f", 3)],
      exports := ⟨1, 3, 1, 500, 0, 0⟩,
      read32 := fun rva => rva }

end ConcreteRuns

/-- C1 counterexample: a buffer accepted by the header checks whose
relocation directory has size zero, loaded where the preferred base is
unavailable (actual base `0x200000` versus preferred `0x10000000`, so the
delta is nonzero): `LoadLibrary` does not fail — it returns the module,
with `isRelocated = false`. -/
theorem reloc_absent_no_failure_cex :
    (LoadLibrary c1env imgBase).1.toOption.map Module.isRelocated
        = some false
  ∧ (LoadLibrary c1env imgBase).1.toOption.map Module.codeBase
        = some 0x200000
  ∧ (imgBase.ntHeaders.OptionalHeader.DataDirectory.getD
        IMAGE_DIRECTORY_ENTRY_BASERELOC ⟨0, 0⟩).Size = 0
  ∧ imgBase.ntHeaders.OptionalHeader.ImageBase = 0x10000000
  ∧ (0x200000 : Nat) ≠ 0x10000000 :=
  ⟨rfl, rfl, rfl, rfl, by decide⟩

/-- Witness for the amended C1 on the concrete relocated-without-directory
run. -/
theorem reloc_absent_sets_isRelocated_false_witness :
    c1mod.isRelocated = false :=
  reloc_absent_sets_isRelocated_false c1env imgBase c1mod
    (LoadLibrary c1env imgBase).2 rfl rfl (by decide)

/-- C3 counterexample: an image violating only the `SizeOfHeaders` bound is
rejected with the incomplete-headers error, yet its event trace contains a
virtual-memory allocation — the check is not performed before the
allocation. -/
theorem sizeofheaders_checked_after_alloc_cex :
    (LoadLibrary envBase c3img).1 = Except.error LoadError.incompleteHeaders
  ∧ ((LoadLibrary envBase c3img).2.any MemEvent.isAlloc) = true
  ∧ c3img.size < c3img.ntHeaders.OptionalHeader.SizeOfHeaders :=
  ⟨rfl, rfl, by decide⟩

/-- Witness for the amended C3: a DOS-magic violation leaves an empty
trace, and the concrete incomplete-headers run performs no page-protection
change. -/
theorem header_checks_before_alloc_witness :
    (LoadLibrary envBase c3bad).2 = []
  ∧ ∀ ev ∈ (LoadLibrary envBase c3img).2, ev.isProtect = false :=
  ⟨(header_checks_before_alloc envBase c3bad).1 LoadError.notMSDOS
      (LoadLibrary envBase c3bad).2 rfl (by decide),
   (header_checks_before_alloc envBase c3img).2
      (LoadLibrary envBase c3img).2 rfl⟩

/-- Witness for C6: a concrete DLL whose entry point returns nonzero loads
with `initialized = true`, is a DLL, and its trace contains the
`DLL_PROCESS_ATTACH` notification. -/
theorem initialized_implies_dll_entry_success_witness :
    c6mod.isDLL = true ∧ envBase.entryResult ≠ 0
      ∧ MemEvent.entryCall c6mod.entry DLL_PROCESS_ATTACH
          ∈ (LoadLibrary envBase c6img).2 :=
  (initialized_implies_dll_entry_success envBase c6img).1 c6mod
    (LoadLibrary envBase c6img).2 rfl rfl

/-- C7 counterexample: a module whose import resolution acquired handles
`11` then `22` (in that insertion order) releases them on `Free` in the
same forward order `[11, 22]`, not in reverse order. -/
theorem free_releases_reverse_order_cex :
    (LoadLibrary c7env c7img).1.toOption.map Module.modules
        = some (some [11, 22])
  ∧ freeLibEvents (Module.Free c7mod).2 = [11, 22]
  ∧ (11 : Nat) ≠ 22 :=
  ⟨rfl, rfl, by decide⟩

/-- Witness for the amended C7 on the concrete two-dependency module. -/
theorem free_releases_insertion_order_witness :
    freeLibEvents (Module.Free c7mod).2 = [11, 22] :=
  free_releases_insertion_order c7mod [11, 22] rfl

/-- C9: with a nonempty export directory, `ProcAddressByName` and
`ProcAddressByOrdinal` return the ordinal-too-high error exactly when the
computed index strictly exceeds `NumberOfFunctions`; at an index equal to
`NumberOfFunctions` — one past the last valid entry, the valid indices
being `0` to `NumberOfFunctions − 1` — both lookups succeed, returning
`codeBase` plus the 32-bit RVA read at `AddressOfFunctions +
NumberOfFunctions * 4`, one entry beyond the export address table. -/
theorem proc_address_off_by_one (m : Module)
    (hdir : (m.headerDirectory IMAGE_DIRECTORY_ENTRY_EXPORT).Size ≠ 0) :
    (∀ (name : String) (nex : List (String × Nat)) (idx : Nat),
        m.nameExports = some nex → nex.lookup name = some idx →
        ((m.ProcAddressByName name = Except.error ProcError.ordinalTooHigh
            ↔ m.exports.NumberOfFunctions < idx)
          ∧ (idx = m.exports.NumberOfFunctions →
              m.ProcAddressByName name = Except.ok (m.codeBase
                + m.read32 (m.exports.AddressOfFunctions
                    + m.exports.NumberOfFunctions * 4) % 2 ^ 32))))
  ∧ (∀ ordinal : Nat, m.exports.Base ≤ ordinal → ordinal < 2 ^ 16 →
        ((m.ProcAddressByOrdinal ordinal
              = Except.error ProcError.ordinalTooHigh
            ↔ m.exports.NumberOfFunctions < ordinal - m.exports.Base)
          ∧ (ordinal - m.exports.Base = m.exports.NumberOfFunctions →
              m.ProcAddressByOrdinal ordinal = Except.ok (m.codeBase
                + m.read32 (m.exports.AddressOfFunctions
                    + m.exports.NumberOfFunctions * 4) % 2 ^ 32)))) := by
  constructor
  · intro name nex idx hne hlk
    unfold Module.ProcAddressByName
    rw [if_neg hdir]
    simp only [hne, hlk]
    by_cases hN : m.exports.NumberOfFunctions < idx
    · rw [if_pos hN]
      exact ⟨⟨fun _ => hN, fun _ => rfl⟩, fun hidx => absurd hidx (by omega)⟩
    · rw [if_neg hN]
      refine ⟨⟨fun hok => absurd hok (by simp), fun hlt => absurd hlt hN⟩,
        fun hidx => ?_⟩
      rw [hidx]
  · intro ordinal hge hlt
    have hBase : m.exports.Base % 2 ^ 16 = m.exports.Base :=
      Nat.mod_eq_of_lt (by omega)
    have hidx : (ordinal + 2 ^ 16 - m.exports.Base % 2 ^ 16) % 2 ^ 16
        = ordinal - m.exports.Base := by
      rw [hBase]
      rw [show ordinal + 2 ^ 16 - m.exports.Base
            = 2 ^ 16 + (ordinal - m.exports.Base) from by omega,
        Nat.add_mod_left]
      exact Nat.mod_eq_of_lt (by omega)
    simp only [Module.ProcAddressByOrdinal]
    rw [if_neg hdir, if_neg (by omega : ¬ ordinal < m.exports.Base), hidx]
    by_cases hN : m.exports.NumberOfFunctions < ordinal - m.exports.Base
    · rw [if_pos hN]
      exact ⟨⟨fun _ => hN, fun _ => rfl⟩, fun heq => absurd heq (by omega)⟩
    · rw [if_neg hN]
      refine ⟨⟨fun hok => absurd hok (by simp), fun hlt2 => absurd hlt2 hN⟩,
        fun heq => ?_⟩
      rw [heq]

/-- Witness for C9: on the concrete module, the name mapped to index `3 =
NumberOfFunctions` and the ordinal `Base + 3` both succeed, reading the RVA
one entry beyond the three-entry table (`500 + 12 = 512`). -/
theorem proc_address_off_by_one_witness :
    c9mod.ProcAddressByName "f" = Except.ok (0x1000 + 512)
  ∧ c9mod.ProcAddressByOrdinal 4 = Except.ok (0x1000 + 512) :=
  ⟨((proc_address_off_by_one c9mod (by decide)).1 "f" [("f", 3)] 3 rfl
      rfl).2 rfl,
   ((proc_address_off_by_one c9mod (by decide)).2 4 (by decide)
      (by decide)).2 (by decide)⟩

end Memmod
